import Mathlib

/-!
# Verification of the Proctor-Alpha Tauri backend

Shallow embedding of `src/frontend-tauri/src-tauri/src/lib.rs` and
`src/frontend-tauri/src-tauri/src/pty_manager.rs`.

Paths are modelled as lists of components of an absolute path (the leading
root is implicit, since every path the program manipulates is absolute).
Rust's `Path::join` and `Path::starts_with` operate on *unresolved*
components: `join` appends the components of a relative name (replacing the
whole path when the name is absolute) and `starts_with` is a plain
component-prefix test that does not resolve `..`.  The operating system, in
contrast, resolves `..` when a file is actually opened; `normalizeComps`
models that resolution.  The filesystem is a map from resolved absolute
paths to file contents.
-/

namespace Proctor

/-! ### String helpers (kernel-reducible counterparts of the Rust string ops) -/

/-- Split a character list at every occurrence of `sep` (like Rust's
`split`): always returns at least one (possibly empty) chunk. -/
def splitChar (sep : Char) : List Char → List (List Char)
  | [] => [[]]
  | c :: cs =>
    match splitChar sep cs with
    | [] => [[]]
    | r :: rs => if c = sep then [] :: r :: rs else (c :: r) :: rs

/-- Whether `s` starts with the character `c`. -/
def strStartsWithChar (s : String) (c : Char) : Bool :=
  match s.data with
  | [] => false
  | c' :: _ => c' = c

/-- Whether `s` ends with `suf` (Rust `str::ends_with`). -/
def strEndsWith (s suf : String) : Bool :=
  suf.data.isSuffixOf s.data

/-- Byte length of the UTF-8 encoding of `s`: the value `fs::metadata(..).len()`
returns for a file holding exactly `s`. -/
def byteSize (s : String) : Nat :=
  s.data.foldl (fun n c => n + c.utf8Size) 0

/-- Lexicographic order on strings used by `Vec<String>::sort`. -/
def strLe (a b : String) : Bool :=
  decide (a.data ≤ b.data)

/-! ### Paths -/

/-- The component list of a path string: split on `/`, dropping empty
components and `.` (exactly what iterating Rust `Path::components` yields
after the root; `..` components are kept). -/
def pathComps (name : String) : List String :=
  ((splitChar '/' name.data).map (fun l => l.asString)).filter
    (fun c => decide (c ≠ "" ∧ c ≠ "."))

/-- A path string is absolute iff it starts with `/` (Rust `Path::has_root`). -/
def isAbsName (name : String) : Bool :=
  strStartsWithChar name '/'

/-- Components of the workspace root `$HOME/.proctor_workspace`. -/
def wsComps (home : List String) : List String :=
  home ++ [".proctor_workspace"]

/-- Components of the internal root `$HOME/.proctor_internal`. -/
def internalComps (home : List String) : List String :=
  home ++ [".proctor_internal"]

/-- Components of the history file `$HOME/.proctor_internal/.cmd_history`. -/
def histComps (home : List String) : List String :=
  internalComps home ++ [".cmd_history"]

/-- Rust `workspace_path.join(name)`: an absolute `name` replaces the whole
path, a relative one appends its components.  No `..` resolution happens. -/
def joinedPath (home : List String) (name : String) : List String :=
  if isAbsName name then pathComps name else wsComps home ++ pathComps name

/-- Resolution of `..` components as the operating system performs it when a
file is opened (a `..` at the root stays at the root). -/
def normalizeComps (comps : List String) : List String :=
  comps.foldl (fun acc c => if c = ".." then acc.dropLast else acc ++ [c]) []

/-- The sandbox check shared by `read_file`, `write_file` and `create_file`:
Rust `file_path.starts_with(&workspace_path)`, a component-prefix test on the
*unresolved* joined path. -/
def sandboxCheck (home : List String) (name : String) : Bool :=
  (wsComps home).isPrefixOf (joinedPath home name)

/-- The resolved absolute path a name actually denotes on disk. -/
def resolvedTarget (home : List String) (name : String) : List String :=
  normalizeComps (joinedPath home name)

/-- Resolving `name` against the workspace root escapes that root. -/
def escapesWorkspace (home : List String) (name : String) : Bool :=
  !(wsComps home).isPrefixOf (resolvedTarget home name)

/-! ### Filesystem -/

/-- A filesystem: resolved absolute paths to file contents. -/
def FS : Type := List String → Option String

/-- Write (create or overwrite) the file at resolved path `p`. -/
def fsWrite (fs : FS) (p : List String) (content : String) : FS :=
  fun q => if q = p then some content else fs q

/-! ### Sandboxed file commands (`lib.rs` lines 60–125) -/

/-- Rust `read_file` (`lib.rs:84`): join the name onto the workspace root, reject
with "Access denied" when the unresolved path fails the component-prefix
check, otherwise read the resolved path. -/
def read_file (home : List String) (name : String) (fs : FS) :
    Except String String :=
  if !(sandboxCheck home name) then .error "Access denied"
  else
    match fs (resolvedTarget home name) with
    | some content => .ok content
    | none => .error "No such file or directory (os error 2)"

/-- Rust `write_file` (`lib.rs:98`): same check, then overwrite the resolved path.
Returns the command result together with the filesystem after the call. -/
def write_file (home : List String) (name : String) (content : String)
    (fs : FS) : Except String Unit × FS :=
  if !(sandboxCheck home name) then (.error "Access denied", fs)
  else (.ok (), fsWrite fs (resolvedTarget home name) content)

/-- Rust `create_file` (`lib.rs:111`): same check, then fail with
"File already exists" when the resolved target exists, otherwise create it
empty. -/
def create_file (home : List String) (name : String) (fs : FS) :
    Except String Unit × FS :=
  if !(sandboxCheck home name) then (.error "Access denied", fs)
  else if (fs (resolvedTarget home name)).isSome then
    (.error "File already exists", fs)
  else (.ok (), fsWrite fs (resolvedTarget home name) "")

/-- Rust `save_log` (`lib.rs:43`): unconditionally overwrite
`$HOME/.proctor_workspace/session_log.txt` (no sandbox check: the target is
fixed). -/
def save_log (home : List String) (content : String) (fs : FS) : FS :=
  fsWrite fs (wsComps home ++ ["session_log.txt"]) content

/-- Rust `list_files` (`lib.rs:61`): from the directory entries of the workspace
(`name`, is-a-file flag), keep the plain files, drop `session_log.txt` and
dot-prefixed names, and sort. -/
def list_files (entries : List (String × Bool)) : List String :=
  ((entries.filter (fun e => e.2)).map Prod.fst
    |>.filter (fun name =>
      decide (name ≠ "session_log.txt") && !(strStartsWithChar name '.'))).mergeSort
    strLe

/-! ### Terminal registry (`pty_manager.rs`, `lib.rs:12–35`) -/

/-- One spawned terminal: the byte stream written so far to its input handle,
plus whether the underlying OS handle currently accepts writes (a failing
handle makes `write_all` return an error, which `write_to_pty` discards). -/
structure PtyInstance where
  buf : List Nat
  writeOk : Bool

/-- Rust `writer.write_all(&data)` followed by `writer.flush()`: on a healthy
handle all bytes are appended, on a broken one an error is returned and
nothing is written. -/
def writer_write_all (p : PtyInstance) (data : List Nat) :
    Except Unit PtyInstance :=
  if p.writeOk then .ok { p with buf := p.buf ++ data } else .error ()

/-- Rust `AppState` (`lib.rs:12`): the registry of named terminals and the
session-active flag. -/
structure AppState where
  ptys : String → Option PtyInstance
  is_session_active : Bool

/-- Rust `write_to_pty` (`lib.rs:18`): look the id up; absent means silent no-op;
present means write all bytes and flush, discarding any error (`let _ =`).
The Rust function returns `()`, so the embedding returns the new state and
can never signal an error to the caller. -/
def write_to_pty (st : AppState) (pty_id : String) (data : List Nat) :
    AppState :=
  match st.ptys pty_id with
  | none => st
  | some p =>
    match writer_write_all p data with
    | .ok p' => { st with ptys := fun i => if i = pty_id then some p' else st.ptys i }
    | .error _ => st

/-- Rust `verify_admin_key` (`lib.rs:28`): on exact match with the literal
`"1915"` clear the session-active flag and return `true`; otherwise return
`false` without touching the state. -/
def verify_admin_key (st : AppState) (admin_key : String) : Bool × AppState :=
  if admin_key = "1915" then (true, { st with is_session_active := false })
  else (false, st)

/-! ### The activity watcher (`lib.rs:163–219`) -/

/-- The `notify::EventKind` variants the watcher can receive. -/
inductive EventKind
  | access
  | create
  | modify
  | remove
  | any
  | other

/-- An emitted `log-event` payload: the JSON `type` tag (`"command"` or
`"file"`) and the `message`. -/
structure LogEvent where
  etype : String
  message : String
deriving DecidableEq

/-- Rust `path.file_name().unwrap_or_default()`: the last component, or the
empty string when there is none. -/
def fileNameOf (path : List String) : String :=
  (path.getLast?).getD ""

/-- Drop one trailing carriage return, as Rust `BufRead::lines` does per
line. -/
def dropCR (l : List Char) : List Char :=
  if l.getLast? = some '\r' then l.dropLast else l

/-- The lines of a file's content under Rust `BufRead::lines`: split at
`\n`, a trailing `\n` terminates the last line rather than opening an empty
one, every line is stripped of a trailing `\r`; an empty file has no lines. -/
def rustLines (s : String) : List String :=
  match s.data with
  | [] => []
  | c :: cs =>
    let parts := splitChar '\n' (c :: cs)
    let parts := if (c :: cs).getLast? = some '\n' then parts.dropLast else parts
    parts.map (fun l => (dropCR l).asString)

/-- Rust `get_last_line` (`lib.rs:52`): open the file at `path`; `None` when it
cannot be opened, otherwise the last line (or `None` for an empty file). -/
def get_last_line (fs : FS) (path : List String) : Option String :=
  match fs path with
  | some content => (rustLines content).getLast?
  | none => none

/-- The per-path body of the watcher loop (`lib.rs:178–213`): given the
current history-size cursor, return the new cursor and the emitted events,
in order. -/
def processPath (home : List String) (fs : FS) (kind : EventKind)
    (last_history_size : Nat) (path : List String) : Nat × List LogEvent :=
  let file_name := fileNameOf path
  if strEndsWith file_name ".swp" || strEndsWith file_name "~"
      || decide (file_name = "session_log.txt") then
    (last_history_size, [])
  else if (internalComps home).isPrefixOf path
      && decide (file_name = ".cmd_history") then
    match fs path with
    | some content =>
      let current_size := byteSize content
      if last_history_size < current_size then
        (current_size,
          match get_last_line fs path with
          | some cmd => [⟨"command", cmd⟩]
          | none => [])
      else (last_history_size, [])
    | none => (last_history_size, [])
  else if (wsComps home).isPrefixOf path then
    match kind with
    | .create => (last_history_size, [⟨"file", "Created file '" ++ file_name ++ "'"⟩])
    | .modify => (last_history_size, [⟨"file", "Modified file '" ++ file_name ++ "'"⟩])
    | .remove => (last_history_size, [⟨"file", "Deleted file '" ++ file_name ++ "'"⟩])
    | _ => (last_history_size, [])
  else (last_history_size, [])

/-- One raw `notify` notification: a change kind and the affected paths. -/
structure RawEvent where
  kind : EventKind
  paths : List (List String)

/-- One iteration of `for res in rx` on an `Ok` notification: fold the
per-path body over `event.paths`, accumulating emitted events in order. -/
def processRawEvent (home : List String) (fs : FS) (st : Nat)
    (ev : RawEvent) : Nat × List LogEvent :=
  ev.paths.foldl
    (fun acc p =>
      let r := processPath home fs ev.kind acc.1 p
      (r.1, acc.2 ++ r.2))
    (st, [])

/-! ### The full command surface (`lib.rs:283`), for the session-flag claims -/

/-- The commands the UI can invoke (`invoke_handler` list). -/
inductive Cmd
  | writeToPty (id : String) (data : List Nat)
  | verifyAdminKey (key : String)
  | exitApp
  | saveLog (content : String)
  | listFiles
  | readFile (name : String)
  | writeFile (name : String) (content : String)
  | createFile (name : String)

/-- The whole mutable state a command can touch. -/
structure Sys where
  app : AppState
  fs : FS
  home : List String

/-- The state transition of one UI command.  `read_file` and `list_files`
only produce values; `exit_app` terminates the process without mutating
state first. -/
def stepCmd (c : Cmd) (s : Sys) : Sys :=
  match c with
  | .writeToPty id data => { s with app := write_to_pty s.app id data }
  | .verifyAdminKey key => { s with app := (verify_admin_key s.app key).2 }
  | .exitApp => s
  | .saveLog content => { s with fs := save_log s.home content s.fs }
  | .listFiles => s
  | .readFile _ => s
  | .writeFile n cnt => { s with fs := (write_file s.home n cnt s.fs).2 }
  | .createFile n => { s with fs := (create_file s.home n s.fs).2 }

/-- Run a sequence of UI commands from left to right. -/
def runCmds (cmds : List Cmd) (s : Sys) : Sys :=
  cmds.foldl (fun t c => stepCmd c t) s

/-! ## Helper lemmas -/

theorem isPrefixOf_append_self (l r : List String) :
    l.isPrefixOf (l ++ r) = true :=
  List.isPrefixOf_iff_prefix.mpr (List.prefix_append l r)

theorem fileNameOf_append (l : List String) (a : String) :
    fileNameOf (l ++ [a]) = a := by
  unfold fileNameOf
  rw [List.getLast?_append]
  rfl

theorem fileNameOf_histComps (home : List String) :
    fileNameOf (histComps home) = ".cmd_history" :=
  fileNameOf_append (internalComps home) ".cmd_history"

theorem internal_isPrefixOf_histComps (home : List String) :
    (internalComps home).isPrefixOf (histComps home) = true :=
  isPrefixOf_append_self (internalComps home) [".cmd_history"]

/-! ## Claim theorems -/

/-- A home directory `/home/user` and a filesystem holding one file
`/home/user/secret` outside the workspace, used to exhibit the sandbox
escape of claim C1. -/
def escapeDemoFS : FS :=
  fun p => if p = ["home", "user", "secret"] then some "top secret" else none

/-- C1: the claim states that for every relative name whose resolution
against the workspace root escapes that root, `read_file`, `write_file` and
`create_file` return AccessDenied and mutate nothing.  The code violates
this: `Path::join` and `Path::starts_with` do not resolve `..`, so
`"../secret"` passes the `starts_with` sandbox check although its resolved
target `$HOME/secret` lies outside the workspace; the operations then read,
overwrite and create files outside the sandbox. -/
theorem C1_sandbox_escape :
    escapesWorkspace ["home", "user"] "../secret" = true ∧
    sandboxCheck ["home", "user"] "../secret" = true ∧
    read_file ["home", "user"] "../secret" escapeDemoFS
      = Except.ok "top secret" ∧
    (write_file ["home", "user"] "../secret" "overwritten" escapeDemoFS).1
      = Except.ok () ∧
    (write_file ["home", "user"] "../secret" "overwritten" escapeDemoFS).2
      ["home", "user", "secret"] = some "overwritten" ∧
    (create_file ["home", "user"] "../evil" escapeDemoFS).1 = Except.ok () ∧
    (create_file ["home", "user"] "../evil" escapeDemoFS).2
      ["home", "user", "evil"] = some "" :=
  ⟨by decide, by decide, rfl, rfl, rfl, rfl, rfl⟩

/-- C9: `verify_admin_key` on the exact secret `"1915"` returns `true` and
clears the session-active flag, leaving the terminal registry as it was. -/
theorem C9_unlock_on_match (st : AppState) :
    verify_admin_key st "1915" = (true, { st with is_session_active := false }) := by
  simp [verify_admin_key]

/-- C4: for a relative name whose resolved target does not yet exist, the
first `create_file` succeeds and creates the empty file, the second returns
AlreadyExists and leaves the filesystem exactly as after the first call. -/
theorem C4_create_twice (home : List String) (name : String) (fs : FS)
    (hrel : isAbsName name = false)
    (hnew : fs (resolvedTarget home name) = none) :
    create_file home name fs =
      (Except.ok (), fsWrite fs (resolvedTarget home name) "") ∧
    fsWrite fs (resolvedTarget home name) "" (resolvedTarget home name) = some "" ∧
    create_file home name (fsWrite fs (resolvedTarget home name) "") =
      (Except.error "File already exists",
        fsWrite fs (resolvedTarget home name) "") := by
  have hcheck : sandboxCheck home name = true := by
    unfold sandboxCheck joinedPath
    rw [if_neg (by simp [hrel])]
    exact isPrefixOf_append_self _ _
  refine ⟨?_, ?_, ?_⟩
  · simp [create_file, hcheck, hnew]
  · simp [fsWrite]
  · simp [create_file, hcheck, fsWrite]

/-- C4 witness: the concrete double-create of `x.txt` in an empty workspace. -/
theorem C4_create_twice_witness :
    create_file ["h"] "x.txt" (fun _ => none) =
      (Except.ok (), fsWrite (fun _ => none) (resolvedTarget ["h"] "x.txt") "") ∧
    fsWrite (fun _ => none) (resolvedTarget ["h"] "x.txt") ""
      (resolvedTarget ["h"] "x.txt") = some "" ∧
    create_file ["h"] "x.txt"
      (fsWrite (fun _ => none) (resolvedTarget ["h"] "x.txt") "") =
      (Except.error "File already exists",
        fsWrite (fun _ => none) (resolvedTarget ["h"] "x.txt") "") :=
  C4_create_twice ["h"] "x.txt" (fun _ => none) (by decide) rfl

/-- C5: a notification whose base name ends in `.swp` or `~`, or equals
`session_log.txt`, produces no event and leaves the cursor unchanged, under
any watch root. -/
theorem C5_noise_filtered (home : List String) (fs : FS) (kind : EventKind)
    (S : Nat) (path : List String)
    (h : strEndsWith (fileNameOf path) ".swp" = true ∨
         strEndsWith (fileNameOf path) "~" = true ∨
         fileNameOf path = "session_log.txt") :
    processPath home fs kind S path = (S, []) := by
  unfold processPath
  rcases h with h | h | h <;> simp [h]

/-- C5 witness: a vim swap file under the workspace root is filtered out. -/
theorem C5_noise_filtered_witness :
    processPath ["h"] (fun _ => none) EventKind.modify 7
      ["h", ".proctor_workspace", "a.swp"] = (7, []) :=
  C5_noise_filtered ["h"] (fun _ => none) EventKind.modify 7
    ["h", ".proctor_workspace", "a.swp"] (Or.inl (by decide))

/-- C2: on a notification for the history file whose last line is `cmd`, a
size strictly above the cursor yields exactly one Command event carrying
`cmd` and moves the cursor to the new size; a size at or below the cursor
yields no event and leaves the cursor unchanged. -/
theorem C2_history_growth (home : List String) (fs : FS) (kind : EventKind)
    (S : Nat) (content cmd : String)
    (hfile : fs (histComps home) = some content)
    (hlast : (rustLines content).getLast? = some cmd) :
    (S < byteSize content →
      processPath home fs kind S (histComps home)
        = (byteSize content, [⟨"command", cmd⟩])) ∧
    (byteSize content ≤ S →
      processPath home fs kind S (histComps home) = (S, [])) := by
  have hname := fileNameOf_histComps home
  have hpre := internal_isPrefixOf_histComps home
  have h1 : strEndsWith ".cmd_history" ".swp" = false := by decide
  have h2 : strEndsWith ".cmd_history" "~" = false := by decide
  constructor
  · intro hgrow
    simp [processPath, hname, hpre, hfile, get_last_line, hlast, hgrow, h1, h2]
  · intro hstale
    simp [processPath, hname, hpre, hfile, Nat.not_lt.mpr hstale, h1, h2]

/-- C2 witness: the history file grown to `"ls\n"` from cursor 0 emits one
Command event `"ls"` and moves the cursor to 3; at cursor 3 it emits
nothing. -/
theorem C2_history_growth_witness :
    processPath ["h"]
      (fun p => if p = ["h", ".proctor_internal", ".cmd_history"]
        then some "ls\n" else none)
      EventKind.modify 0 (histComps ["h"]) = (3, [⟨"command", "ls"⟩]) ∧
    processPath ["h"]
      (fun p => if p = ["h", ".proctor_internal", ".cmd_history"]
        then some "ls\n" else none)
      EventKind.modify 3 (histComps ["h"]) = (3, []) :=
  ⟨(C2_history_growth ["h"] _ EventKind.modify 0 "ls\n" "ls" (by decide)
      (by decide)).1 (by decide),
   (C2_history_growth ["h"] _ EventKind.modify 3 "ls\n" "ls" (by decide)
      (by decide)).2 (by decide)⟩

/-- One path step never decreases the cursor. -/
theorem processPath_cursor_dichotomy (home : List String) (fs : FS)
    (kind : EventKind) (S : Nat) (path : List String) :
    (processPath home fs kind S path).1 = S
      ∨ S < (processPath home fs kind S path).1 := by
  by_cases h1 : (strEndsWith (fileNameOf path) ".swp"
      || strEndsWith (fileNameOf path) "~"
      || decide (fileNameOf path = "session_log.txt")) = true
  · left
    simp [processPath, h1]
  · by_cases h2 : ((internalComps home).isPrefixOf path
        && decide (fileNameOf path = ".cmd_history")) = true
    · cases hm : fs path with
      | none => left; simp [processPath, h1, h2, hm]
      | some content =>
        by_cases h3 : S < byteSize content
        · right
          simp [processPath, h1, h2, hm, h3]
        · left
          simp [processPath, h1, h2, hm, h3]
    · by_cases h4 : (wsComps home).isPrefixOf path = true
      · cases kind <;> (left; simp [processPath, h1, h2, h4])
      · left
        simp [processPath, h1, h2, h4]

theorem processPath_cursor_le (home : List String) (fs : FS)
    (kind : EventKind) (S : Nat) (path : List String) :
    S ≤ (processPath home fs kind S path).1 := by
  rcases processPath_cursor_dichotomy home fs kind S path with h | h
  · exact h.ge
  · exact h.le

theorem processRawEvent_foldl_le (home : List String) (fs : FS)
    (kind : EventKind) (paths : List (List String)) :
    ∀ acc : Nat × List LogEvent,
      acc.1 ≤ (paths.foldl
        (fun acc p =>
          let r := processPath home fs kind acc.1 p
          (r.1, acc.2 ++ r.2)) acc).1 := by
  induction paths with
  | nil => intro acc; exact le_refl _
  | cons p ps ih =>
    intro acc
    rw [List.foldl_cons]
    exact le_trans (processPath_cursor_le home fs kind acc.1 p)
      (ih ((processPath home fs kind acc.1 p).1,
        acc.2 ++ (processPath home fs kind acc.1 p).2))

/-- C6: the history cursor is monotone: each per-path step of the watcher
loop either leaves it unchanged or replaces it with a strictly larger size,
and a whole loop iteration (one raw notification) never decreases it. -/
theorem C6_cursor_monotone (home : List String) (fs : FS) (S : Nat)
    (ev : RawEvent) :
    (∀ (kind : EventKind) (path : List String),
      (processPath home fs kind S path).1 = S
        ∨ S < (processPath home fs kind S path).1) ∧
    S ≤ (processRawEvent home fs S ev).1 := by
  constructor
  · intro kind path
    exact processPath_cursor_dichotomy home fs kind S path
  · exact processRawEvent_foldl_le home fs ev.kind ev.paths (S, [])

/-- C7: an unfiltered notification under the workspace root that is not the
history file maps Create/Modify/Remove to a single FileChange event with
message `<Kind> file '<name>'` and discards every other kind, leaving the
cursor unchanged. -/
theorem C7_workspace_mapping (home : List String) (fs : FS) (S : Nat)
    (kind : EventKind) (path : List String)
    (hnoise : (strEndsWith (fileNameOf path) ".swp"
        || strEndsWith (fileNameOf path) "~"
        || decide (fileNameOf path = "session_log.txt")) = false)
    (hnothist : ((internalComps home).isPrefixOf path
        && decide (fileNameOf path = ".cmd_history")) = false)
    (hws : (wsComps home).isPrefixOf path = true) :
    processPath home fs kind S path =
      (S, match kind with
          | .create => [⟨"file", "Created file '" ++ fileNameOf path ++ "'"⟩]
          | .modify => [⟨"file", "Modified file '" ++ fileNameOf path ++ "'"⟩]
          | .remove => [⟨"file", "Deleted file '" ++ fileNameOf path ++ "'"⟩]
          | _ => []) := by
  unfold processPath
  rw [if_neg (by simp [hnoise]), if_neg (by simp [hnothist]), if_pos hws]
  cases kind <;> rfl

/-- C7 witness: removing `notes.txt` under the workspace emits exactly
`Deleted file 'notes.txt'`. -/
theorem C7_workspace_mapping_witness :
    processPath ["h"] (fun _ => none) EventKind.remove 5
      ["h", ".proctor_workspace", "notes.txt"]
      = (5, [⟨"file", "Deleted file 'notes.txt'"⟩]) :=
  C7_workspace_mapping ["h"] (fun _ => none) 5 EventKind.remove
    ["h", ".proctor_workspace", "notes.txt"] (by decide) (by decide) (by decide)

/-- C3: `write_to_pty` is a total function into states — it can never signal
an error to the caller.  An absent id is a no-op; a present id with a
healthy handle gets all the bytes appended to its input stream, every other
terminal and the session flag untouched; a present id with a broken handle
swallows the write error and changes nothing. -/
theorem C3_write_never_errors (st : AppState) (id : String)
    (data : List Nat) :
    (st.ptys id = none → write_to_pty st id data = st) ∧
    (∀ p : PtyInstance, st.ptys id = some p →
      (p.writeOk = true →
        (write_to_pty st id data).ptys id
          = some { p with buf := p.buf ++ data } ∧
        (∀ j, j ≠ id → (write_to_pty st id data).ptys j = st.ptys j) ∧
        (write_to_pty st id data).is_session_active
          = st.is_session_active) ∧
      (p.writeOk = false → write_to_pty st id data = st)) := by
  constructor
  · intro h
    simp [write_to_pty, h]
  · intro p hp
    constructor
    · intro hok
      refine ⟨?_, ?_, ?_⟩
      · simp [write_to_pty, hp, writer_write_all, hok]
      · intro j hj
        simp [write_to_pty, hp, writer_write_all, hok, hj]
      · simp [write_to_pty, hp, writer_write_all, hok]
    · intro hbad
      simp [write_to_pty, hp, writer_write_all, hbad]

/-- C3 witness: writing to an id that is not in the registry changes
nothing. -/
theorem C3_write_never_errors_witness :
    write_to_pty { ptys := fun _ => none, is_session_active := true }
      "terminal" [104, 105]
      = { ptys := fun _ => none, is_session_active := true } :=
  (C3_write_never_errors { ptys := fun _ => none, is_session_active := true }
    "terminal" [104, 105]).1 rfl

theorem strLe_trans (a b c : String) (h1 : strLe a b = true)
    (h2 : strLe b c = true) : strLe a c = true := by
  simp only [strLe, decide_eq_true_eq] at *
  exact le_trans h1 h2

theorem strLe_total (a b : String) : (strLe a b || strLe b a) = true := by
  simp only [strLe, Bool.or_eq_true, decide_eq_true_eq]
  exact le_total a.data b.data

/-- C8: `list_files` returns a sorted sequence, every returned name differs
from `session_log.txt` and does not start with a dot, and the function
mutates nothing (it is a pure function of the directory entries). -/
theorem C8_list_files_sorted_filtered (entries : List (String × Bool)) :
    (list_files entries).Pairwise (fun a b => strLe a b = true) ∧
    ∀ name ∈ list_files entries,
      name ≠ "session_log.txt" ∧ strStartsWithChar name '.' = false := by
  constructor
  · exact List.sorted_mergeSort strLe_trans strLe_total _
  · intro name hmem
    have hmem' := List.mem_mergeSort.mp hmem
    have hf := (List.mem_filter.mp hmem').2
    simp only [Bool.and_eq_true, decide_eq_true_eq, Bool.not_eq_true'] at hf
    exact hf

/-- C10: the session-active flag is monotone.  A non-matching key makes
`verify_admin_key` return `false` and leave the whole system state
unchanged; every command other than `verifyAdminKey` preserves the flag;
once the flag is false, no single command and no sequence of commands makes
it true again. -/
theorem C10_flag_monotone (s : Sys) (key : String) (hk : key ≠ "1915")
    (cmds : List Cmd) :
    verify_admin_key s.app key = (false, s.app) ∧
    stepCmd (Cmd.verifyAdminKey key) s = s ∧
    (∀ (c : Cmd) (t : Sys), (∀ k, c ≠ Cmd.verifyAdminKey k) →
      (stepCmd c t).app.is_session_active = t.app.is_session_active) ∧
    (∀ (c : Cmd) (t : Sys), t.app.is_session_active = false →
      (stepCmd c t).app.is_session_active = false) ∧
    (s.app.is_session_active = false →
      (runCmds cmds s).app.is_session_active = false) := by
  have hverify : ∀ t : AppState, verify_admin_key t key = (false, t) := by
    intro t
    simp [verify_admin_key, hk]
  have hwrite : ∀ (t : AppState) (id : String) (data : List Nat),
      (write_to_pty t id data).is_session_active = t.is_session_active := by
    intro t id data
    unfold write_to_pty
    cases t.ptys id with
    | none => rfl
    | some p =>
      unfold writer_write_all
      by_cases hok : p.writeOk = true
      · simp [hok]
      · simp [hok]
  have hstep : ∀ (c : Cmd) (t : Sys), t.app.is_session_active = false →
      (stepCmd c t).app.is_session_active = false := by
    intro c t hoff
    cases c with
    | verifyAdminKey k =>
      by_cases hmatch : k = "1915"
      · simp [stepCmd, verify_admin_key, hmatch]
      · simp [stepCmd, verify_admin_key, hmatch, hoff]
    | writeToPty id data => simpa [stepCmd, hwrite] using hoff
    | exitApp => exact hoff
    | saveLog content => exact hoff
    | listFiles => exact hoff
    | readFile n => exact hoff
    | writeFile n cnt => exact hoff
    | createFile n => exact hoff
  refine ⟨hverify s.app, ?_, ?_, hstep, ?_⟩
  · simp [stepCmd, hverify]
  · intro c t hnv
    cases c with
    | verifyAdminKey k => exact absurd rfl (hnv k)
    | writeToPty id data => exact hwrite t.app id data
    | exitApp => rfl
    | saveLog content => rfl
    | listFiles => rfl
    | readFile n => rfl
    | writeFile n cnt => rfl
    | createFile n => rfl
  · intro hoff
    unfold runCmds
    induction cmds generalizing s with
    | nil => exact hoff
    | cons c cs ih =>
      rw [List.foldl_cons]
      exact ih (stepCmd c s) (hstep c s hoff)

/-- C10 witness: from a concrete unlocked state, a wrong key is rejected
without change and a command sequence never re-arms the flag. -/
theorem C10_flag_monotone_witness :
    verify_admin_key
      { ptys := fun _ => none, is_session_active := false } "0000"
      = (false, { ptys := fun _ => none, is_session_active := false }) ∧
    (runCmds [Cmd.createFile "a.txt", Cmd.writeToPty "terminal" [108]]
      { app := { ptys := fun _ => none, is_session_active := false },
        fs := fun _ => none,
        home := ["h"] }).app.is_session_active = false :=
  ⟨(C10_flag_monotone
      { app := { ptys := fun _ => none, is_session_active := false },
        fs := fun _ => none, home := ["h"] }
      "0000" (by decide)
      [Cmd.createFile "a.txt", Cmd.writeToPty "terminal" [108]]).1,
   (C10_flag_monotone
      { app := { ptys := fun _ => none, is_session_active := false },
        fs := fun _ => none, home := ["h"] }
      "0000" (by decide)
      [Cmd.createFile "a.txt", Cmd.writeToPty "terminal" [108]]).2.2.2.2 rfl⟩

end Proctor
